import Mathlib

/-!
Verification of the announcements router (src/backend/routers/announcements.py).

The router exposes five operations over a document store of announcement
records, gated by a teacher-existence check: list-active, list-all, create,
update, delete.  We embed the router shallowly: the store is a list of
records, server time and store-assigned identifiers are explicit parameters,
and each endpoint is a pure function returning `Except ApiError`.
-/

namespace Announcements

/-! ### Model of Python `datetime.fromisoformat`

The router parses date strings with `datetime.fromisoformat` after the
normalization `s.replace ("Z", "+00:00")`.  We model the pre-3.11 grammar the
code was written against: `YYYY-MM-DD`, optionally followed by one separator
character, `HH[:MM[:SS[.f{1..6}]]]`, and an optional UTC offset `+HH:MM` or
`-HH:MM`.  A parsed value carries a naive timestamp in microseconds and an
optional timezone offset in minutes; comparing an offset-aware value with a
naive one raises `TypeError` in Python, modelled by `pyCompare` returning
`none`. -/

def digit? (c : Char) : Option Nat :=
  if c.isDigit then some (c.toNat - 48) else none

def read2 : List Char → Option (Nat × List Char)
  | a :: b :: rest => do pure ((← digit? a) * 10 + (← digit? b), rest)
  | _ => none

def read4 : List Char → Option (Nat × List Char)
  | a :: b :: c :: d :: rest => do
      pure ((((← digit? a) * 10 + (← digit? b)) * 10 + (← digit? c)) * 10 + (← digit? d), rest)
  | _ => none

def isLeap (y : Nat) : Bool :=
  y % 4 == 0 && (y % 100 != 0 || y % 400 == 0)

def daysInMonth (y m : Nat) : Nat :=
  if m == 2 then (if isLeap y then 29 else 28)
  else if m == 4 || m == 6 || m == 9 || m == 11 then 30
  else 31

def daysBeforeYear (y : Nat) : Nat :=
  let n := y - 1
  n * 365 + n / 4 - n / 100 + n / 400

def daysBeforeMonth (y m : Nat) : Nat :=
  (List.range (m - 1)).foldl (fun acc i => acc + daysInMonth y (i + 1)) 0

def toOrdinal (y m d : Nat) : Nat :=
  daysBeforeYear y + daysBeforeMonth y m + (d - 1)

structure PyDateTime where
  us : Int
  tz : Option Int
deriving Repr, DecidableEq

def parseDatePart (cs : List Char) : Option (Nat × Nat × Nat × List Char) := do
  let (y, cs1) ← read4 cs
  match cs1 with
  | '-' :: cs2 => do
    let (m, cs3) ← read2 cs2
    match cs3 with
    | '-' :: cs4 => do
      let (d, cs5) ← read2 cs4
      if 1 ≤ y ∧ 1 ≤ m ∧ m ≤ 12 ∧ 1 ≤ d ∧ d ≤ daysInMonth y m then
        pure (y, m, d, cs5)
      else none
    | _ => none
  | _ => none

def takeDigits : List Char → List Nat × List Char
  | [] => ([], [])
  | c :: rest =>
    match digit? c with
    | some d => let (ds, r) := takeDigits rest; (d :: ds, r)
    | none => ([], c :: rest)

def fracUs (ds : List Nat) : Option Nat :=
  if ds.length = 0 ∨ 6 < ds.length then none
  else some ((ds.foldl (fun a d => a * 10 + d) 0) * 10 ^ (6 - ds.length))

def parseTz : List Char → Option (Option Int)
  | [] => some none
  | c :: rest =>
    if c = '+' ∨ c = '-' then do
      let (th, r1) ← read2 rest
      match r1 with
      | ':' :: r2 => do
        let (tm, r3) ← read2 r2
        if th ≤ 23 ∧ tm ≤ 59 ∧ r3 = [] then
          let mins : Int := ((th * 60 + tm : Nat) : Int)
          pure (some (if c = '-' then -mins else mins))
        else none
      | _ => none
    else none

def parseTime (cs : List Char) : Option (Nat × Option Int) := do
  let (hh, cs1) ← read2 cs
  if 24 ≤ hh then none else
  match cs1 with
  | ':' :: cs2 => do
    let (mm, cs3) ← read2 cs2
    if 60 ≤ mm then none else
    match cs3 with
    | ':' :: cs4 => do
      let (ss, cs5) ← read2 cs4
      if 60 ≤ ss then none else
      match cs5 with
      | '.' :: cs6 => do
        let (ds, cs7) := takeDigits cs6
        let f ← fracUs ds
        let tz ← parseTz cs7
        pure ((hh * 3600 + mm * 60 + ss) * 1000000 + f, tz)
      | _ => do
        let tz ← parseTz cs5
        pure ((hh * 3600 + mm * 60 + ss) * 1000000, tz)
    | _ => do
      let tz ← parseTz cs3
      pure ((hh * 3600 + mm * 60) * 1000000, tz)
  | _ => do
    let tz ← parseTz cs1
    pure (hh * 3600000000, tz)

def pyFromIso (s : String) : Option PyDateTime := do
  let (y, m, d, rest) ← parseDatePart s.data
  match rest with
  | [] => pure ⟨((toOrdinal y m d) * 86400000000 : Nat), none⟩
  | _ :: timeCs =>
    if timeCs = [] then none
    else do
      let (tus, tz) ← parseTime timeCs
      pure ⟨(((toOrdinal y m d) * 86400000000 + tus : Nat) : Int), tz⟩

def utcUs (t : PyDateTime) : Int :=
  t.us - (t.tz.getD 0) * 60000000

def pyCompare (a b : PyDateTime) : Option Ordering :=
  match a.tz, b.tz with
  | none, none => some (compare a.us b.us)
  | some _, some _ => some (compare (utcUs a) (utcUs b))
  | _, _ => none

/-- Python `s.replace ("Z", "+00:00")`: every occurrence of the single
character Z is replaced by the explicit zero UTC offset. -/
def replaceZ : List Char → List Char
  | [] => []
  | c :: rest =>
    if c = 'Z' then '+' :: '0' :: '0' :: ':' :: '0' :: '0' :: replaceZ rest
    else c :: replaceZ rest

def znorm (s : String) : String :=
  ⟨replaceZ s.data⟩

/-! ### Model of bson `ObjectId`

`ObjectId (s)` succeeds exactly on 24-character hexadecimal strings and is
case-insensitive; `str` of the resulting id is the lowercase form. -/

def isHexChar (c : Char) : Bool :=
  c.isDigit || ('a' ≤ c && c ≤ 'f') || ('A' ≤ c && c ≤ 'F')

def hexLower (s : String) : String :=
  ⟨s.data.map Char.toLower⟩

def parseObjectId (s : String) : Option String :=
  if s.length == 24 && s.data.all isHexChar then some (hexLower s) else none

/-! ### Data model -/

structure Announcement where
  oid : String
  message : String
  start_date : Option String
  end_date : String
  created_by : String
  created_at : String
deriving Repr, DecidableEq

structure DB where
  announcements : List Announcement
  teachers : List String
deriving Repr, DecidableEq

inductive ApiError where
  | unauthorized
  | invalidArgument
  | notFound
  | serverError
deriving Repr, DecidableEq

/-- The repeated authentication block: 401 when `teacher_username` is falsy
(`None` or empty) or when no teacher record with that exact id exists. -/
def checkTeacherAuth (db : DB) (teacher_username : Option String) : Except ApiError String :=
  match teacher_username with
  | none => .error .unauthorized
  | some u =>
    if u = "" then .error .unauthorized
    else if u ∈ db.teachers then .ok u
    else .error .unauthorized

/-- Lexicographic comparison of strings by character code, the order MongoDB
applies to the ISO timestamp strings stored by this module. -/
def charListLe : List Char → List Char → Bool
  | [], _ => true
  | _ :: _, [] => false
  | a :: as, b :: bs =>
    if a.toNat < b.toNat then true
    else if b.toNat < a.toNat then false
    else charListLe as bs

def strLe (s t : String) : Bool :=
  charListLe s.data t.data

/-- Sorting relation used by both listing endpoints: created_at descending. -/
def createdAtGe (a b : Announcement) : Prop :=
  strLe b.created_at a.created_at = true

instance : DecidableRel createdAtGe := fun a b =>
  inferInstanceAs (Decidable (strLe b.created_at a.created_at = true))

def sortDesc (l : List Announcement) : List Announcement :=
  l.insertionSort createdAtGe

/-- The Mongo active-window query: `end_date ≥ now` and
(`start_date` is null or `start_date ≤ now`), string comparison. -/
def isActive (now : String) (a : Announcement) : Bool :=
  strLe now a.end_date &&
    (match a.start_date with
     | none => true
     | some s => strLe s now)

/-! ### Endpoints -/

def get_active_announcements (db : DB) (now : String) : List Announcement :=
  sortDesc (db.announcements.filter (isActive now))

def get_all_announcements (db : DB) (teacher_username : Option String) :
    Except ApiError (List Announcement) :=
  match checkTeacherAuth db teacher_username with
  | .error e => .error e
  | .ok _ => .ok (sortDesc db.announcements)

/-- The create-side date validation block (lines 96-106): parse end_date,
then, when start_date is truthy, parse it and require start < end.  A
`TypeError` from comparing aware with naive is not caught by the
`except ValueError` and surfaces as a server error. -/
def validateCreateDates (end_date : String) (start_date : Option String) :
    Except ApiError Unit :=
  match pyFromIso (znorm end_date) with
  | none => .error .invalidArgument
  | some end_dt =>
    match start_date with
    | none => .ok ()
    | some s =>
      if s = "" then .ok ()
      else
        match pyFromIso (znorm s) with
        | none => .error .invalidArgument
        | some start_dt =>
          match pyCompare start_dt end_dt with
          | none => .error .serverError
          | some Ordering.lt => .ok ()
          | some _ => .error .invalidArgument

def create_announcement (db : DB) (message end_date : String)
    (start_date teacher_username : Option String) (now newId : String) :
    Except ApiError (DB × Announcement) :=
  match checkTeacherAuth db teacher_username with
  | .error e => .error e
  | .ok u =>
    match validateCreateDates end_date start_date with
    | .error e => .error e
    | .ok _ =>
      let ann : Announcement :=
        { oid := newId, message := message, start_date := start_date,
          end_date := end_date, created_by := u, created_at := now }
      .ok ({ db with announcements := db.announcements ++ [ann] }, ann)

/-- The `$set` document built by update (lines 153-173): `none` means the
field is not written; for start_date, `some none` records the empty-string
clearing. -/
structure UpdateFields where
  message : Option String
  end_date : Option String
  start_date : Option (Option String)
deriving Repr, DecidableEq

def buildEnd (end_date : Option String) : Except ApiError (Option String) :=
  match end_date with
  | none => .ok none
  | some e =>
    match pyFromIso (znorm e) with
    | none => .error .invalidArgument
    | some _ => .ok (some e)

def buildStart (start_date : Option String) : Except ApiError (Option (Option String)) :=
  match start_date with
  | none => .ok none
  | some s =>
    if s = "" then .ok (some none)
    else
      match pyFromIso (znorm s) with
      | none => .error .invalidArgument
      | some _ => .ok (some (some s))

def buildUpdateFields (message end_date start_date : Option String) :
    Except ApiError UpdateFields :=
  match buildEnd end_date with
  | .error e => .error e
  | .ok ef =>
    match buildStart start_date with
    | .error e => .error e
    | .ok sf => .ok ⟨message, ef, sf⟩

def finalStartOf (uf : UpdateFields) (a : Announcement) : Option String :=
  match uf.start_date with
  | some v => v
  | none => a.start_date

def finalEndOf (uf : UpdateFields) (a : Announcement) : String :=
  match uf.end_date with
  | some v => v
  | none => a.end_date

def truthy : Option String → Bool
  | none => false
  | some s => s ≠ ""

/-- The final re-validation (lines 175-187): runs only when both prospective
values are truthy; a ValueError while re-parsing is swallowed (`pass`), so
the invariant check is skipped; an incomparable aware/naive pair raises
`TypeError`, uncaught. -/
def validateFinalDates (finalStart : Option String) (finalEnd : String) :
    Except ApiError Unit :=
  if truthy finalStart && finalEnd ≠ "" then
    match finalStart with
    | none => .ok ()
    | some fs =>
      match pyFromIso (znorm fs), pyFromIso (znorm finalEnd) with
      | some sd, some ed =>
        match pyCompare sd ed with
        | none => .error .serverError
        | some Ordering.lt => .ok ()
        | some _ => .error .invalidArgument
      | _, _ => .ok ()
  else .ok ()

def applyUpdate (uf : UpdateFields) (a : Announcement) : Announcement :=
  { a with
    message := uf.message.getD a.message,
    end_date := uf.end_date.getD a.end_date,
    start_date :=
      match uf.start_date with
      | some v => v
      | none => a.start_date }

def ufNonempty (uf : UpdateFields) : Bool :=
  uf.message.isSome || uf.end_date.isSome || uf.start_date.isSome

def findByOid (l : List Announcement) (oid : String) : Option Announcement :=
  l.find? (fun a => a.oid == oid)

def update_announcement (db : DB) (announcement_id : String)
    (message end_date start_date teacher_username : Option String) :
    Except ApiError (DB × Announcement) :=
  match checkTeacherAuth db teacher_username with
  | .error e => .error e
  | .ok _ =>
    match parseObjectId announcement_id with
    | none => .error .invalidArgument
    | some oid =>
      match findByOid db.announcements oid with
      | none => .error .notFound
      | some ann =>
        match buildUpdateFields message end_date start_date with
        | .error e => .error e
        | .ok uf =>
          match validateFinalDates (finalStartOf uf ann) (finalEndOf uf ann) with
          | .error e => .error e
          | .ok _ =>
            let anns :=
              db.announcements.map (fun a => if a.oid == oid then applyUpdate uf a else a)
            let db' : DB := if ufNonempty uf then { db with announcements := anns } else db
            match findByOid db'.announcements oid with
            | some updated => .ok (db', updated)
            | none => .error .serverError

/-- Mongo `delete_one`: removes the first matching document, reporting the
number of deletions. -/
def deleteFirst (oid : String) : List Announcement → List Announcement × Nat
  | [] => ([], 0)
  | a :: rest =>
    if a.oid == oid then (rest, 1)
    else
      let (r, n) := deleteFirst oid rest
      (a :: r, n)

def delete_announcement (db : DB) (announcement_id : String)
    (teacher_username : Option String) : Except ApiError (DB × String) :=
  match checkTeacherAuth db teacher_username with
  | .error e => .error e
  | .ok _ =>
    match parseObjectId announcement_id with
    | none => .error .invalidArgument
    | some oid =>
      let (rest, n) := deleteFirst oid db.announcements
      if n == 0 then .error .notFound
      else .ok ({ db with announcements := rest }, "Announcement deleted successfully")

/-- The shared authorization condition of the spec: a non-empty requester id
naming an existing teacher record. -/
def authorized (db : DB) (tu : Option String) : Prop :=
  ∃ u, tu = some u ∧ u ≠ "" ∧ u ∈ db.teachers

/-- The prospective final start_date of an update: the supplied value
overrides the stored one, with the empty string clearing the field. -/
def rawFinalStart (s : Option String) (a : Announcement) : Option String :=
  match s with
  | none => a.start_date
  | some v => if v = "" then none else some v

/-- The prospective final end_date of an update: supplied value override. -/
def rawFinalEnd (e : Option String) (a : Announcement) : String :=
  e.getD a.end_date

/-- The start_date entry of a successfully built update document, as a
function of the supplied argument. -/
def startFieldOf (s : Option String) : Option (Option String) :=
  match s with
  | none => none
  | some v => some (if v = "" then none else some v)

/-! ### Concrete fixtures used to instantiate the theorems -/

def wAnn1 : Announcement :=
  { oid := "aaaaaaaaaaaaaaaaaaaaaaaa", message := "m1",
    start_date := some "2025-01-01T00:00:00", end_date := "2031-01-01T00:00:00",
    created_by := "alice", created_at := "2025-01-01T12:00:00" }

def wAnn2 : Announcement :=
  { oid := "bbbbbbbbbbbbbbbbbbbbbbbb", message := "m2",
    start_date := none, end_date := "2030-01-01T00:00:00",
    created_by := "alice", created_at := "2025-02-01T12:00:00" }

def wDB : DB :=
  { announcements := [wAnn1, wAnn2], teachers := ["alice"] }

def wAuth : authorized wDB (some "alice") :=
  ⟨"alice", rfl, by decide, by decide⟩

end Announcements

namespace Announcements

example : (pyFromIso "2030-01-01T00:00:00").isSome = true := by decide
example : pyFromIso (znorm "2030-01-01T00:00:00Z") =
    some ⟨(pyFromIso "2030-01-01T00:00:00").getD ⟨0, none⟩ |>.us, some 0⟩ := by decide
example : (match pyFromIso "2025-01-02T00:00:00", pyFromIso "2025-01-01T00:00:00" with
  | some a, some b => pyCompare a b
  | _, _ => none) = some Ordering.gt := by decide
example : pyFromIso "" = none := by rfl
example : pyFromIso "not-a-date" = none := by rfl
example : parseObjectId "not-a-valid-id" = none := by rfl
example : parseObjectId "AAAAAAAAAAAAAAAAAAAAAAA0" = some "aaaaaaaaaaaaaaaaaaaaaaa0" := by decide

/-! ### Authorization lemmas -/

theorem checkTeacherAuth_ok_iff (db : DB) (tu : Option String) (u : String) :
    checkTeacherAuth db tu = .ok u ↔ tu = some u ∧ u ≠ "" ∧ u ∈ db.teachers := by
  constructor
  · intro h
    match tu with
    | none => exact Except.noConfusion h
    | some v =>
      unfold checkTeacherAuth at h
      dsimp only at h
      by_cases h1 : v = ""
      · rw [if_pos h1] at h
        exact Except.noConfusion h
      · rw [if_neg h1] at h
        by_cases h2 : v ∈ db.teachers
        · rw [if_pos h2] at h
          injection h with h
          subst h
          exact ⟨rfl, h1, h2⟩
        · rw [if_neg h2] at h
          exact Except.noConfusion h
  · rintro ⟨rfl, hne, hmem⟩
    unfold checkTeacherAuth
    dsimp only
    rw [if_neg hne, if_pos hmem]

theorem checkTeacherAuth_error_iff (db : DB) (tu : Option String) :
    checkTeacherAuth db tu = .error .unauthorized ↔ ¬ authorized db tu := by
  constructor
  · rintro herr ⟨u, rfl, hne, hmem⟩
    rw [(checkTeacherAuth_ok_iff db (some u) u).mpr ⟨rfl, hne, hmem⟩] at herr
    exact Except.noConfusion herr
  · intro hna
    unfold checkTeacherAuth
    match tu with
    | none => rfl
    | some v =>
      dsimp only
      by_cases h1 : v = ""
      · rw [if_pos h1]
      · rw [if_neg h1, if_neg (fun h2 => hna ⟨v, rfl, h1, h2⟩)]

theorem authorized_check_ok (db : DB) (tu : Option String) (h : authorized db tu) :
    ∃ u, checkTeacherAuth db tu = .ok u := by
  obtain ⟨u, rfl, hne, hmem⟩ := h
  exact ⟨u, (checkTeacherAuth_ok_iff db (some u) u).mpr ⟨rfl, hne, hmem⟩⟩

theorem validateCreateDates_error_classify (e : String) (s : Option String)
    (err : ApiError) (h : validateCreateDates e s = .error err) :
    err = ApiError.invalidArgument ∨ err = ApiError.serverError := by
  unfold validateCreateDates at h
  repeat' split at h
  all_goals cases h
  all_goals simp

theorem buildEnd_error_classify (e : Option String) (err : ApiError)
    (h : buildEnd e = .error err) : err = ApiError.invalidArgument := by
  unfold buildEnd at h
  repeat' split at h
  all_goals cases h
  rfl

theorem buildStart_error_classify (s : Option String) (err : ApiError)
    (h : buildStart s = .error err) : err = ApiError.invalidArgument := by
  unfold buildStart at h
  repeat' split at h
  all_goals cases h
  rfl

theorem buildUpdateFields_error_classify (m e s : Option String) (err : ApiError)
    (h : buildUpdateFields m e s = .error err) : err = ApiError.invalidArgument := by
  unfold buildUpdateFields at h
  split at h
  · injection h with h
    exact buildEnd_error_classify e err (by rw [‹buildEnd e = _›, h])
  · split at h
    · injection h with h
      exact buildStart_error_classify s err (by rw [‹buildStart s = _›, h])
    · exact Except.noConfusion h

theorem validateFinalDates_error_classify (fs : Option String) (fe : String)
    (err : ApiError) (h : validateFinalDates fs fe = .error err) :
    err = ApiError.invalidArgument ∨ err = ApiError.serverError := by
  unfold validateFinalDates at h
  repeat' split at h
  all_goals cases h
  all_goals simp

theorem get_all_ne_unauth (db : DB) (tu : Option String) (u : String)
    (h : checkTeacherAuth db tu = .ok u) :
    get_all_announcements db tu ≠ .error .unauthorized := by
  intro hc
  unfold get_all_announcements at hc
  rw [h] at hc
  cases hc

theorem create_ne_unauth (db : DB) (m e : String) (s tu : Option String)
    (now nid : String) (u : String) (h : checkTeacherAuth db tu = .ok u) :
    create_announcement db m e s tu now nid ≠ .error .unauthorized := by
  intro hc
  unfold create_announcement at hc
  rw [h] at hc
  dsimp only at hc
  split at hc
  · rename_i err heq
    injection hc with hc
    subst hc
    rcases validateCreateDates_error_classify _ _ _ heq with h' | h' <;> cases h'
  · cases hc

theorem update_ne_unauth (db : DB) (id : String) (m e s tu : Option String)
    (u : String) (h : checkTeacherAuth db tu = .ok u) :
    update_announcement db id m e s tu ≠ .error .unauthorized := by
  intro hc
  unfold update_announcement at hc
  rw [h] at hc
  dsimp only at hc
  split at hc
  · cases hc
  · split at hc
    · cases hc
    · split at hc
      · rename_i err heq
        injection hc with hc
        subst hc
        cases buildUpdateFields_error_classify _ _ _ _ heq
      · split at hc
        · rename_i err heq
          injection hc with hc
          subst hc
          rcases validateFinalDates_error_classify _ _ _ heq with h' | h' <;> cases h'
        · split at hc
          · cases hc
          · cases hc

theorem delete_ne_unauth (db : DB) (id : String) (tu : Option String)
    (u : String) (h : checkTeacherAuth db tu = .ok u) :
    delete_announcement db id tu ≠ .error .unauthorized := by
  intro hc
  unfold delete_announcement at hc
  rw [h] at hc
  dsimp only at hc
  split at hc
  · cases hc
  · split at hc
    · cases hc
    · cases hc

/-- C1: a privileged operation (list-all, create, update, delete) fails with
Unauthorized exactly when the requester id is absent or empty or names no
existing teacher record; when a matching teacher record exists the call gets
past the authorization gate (no password or token enters the check). -/
theorem C1_privileged_unauthorized_iff (db : DB) (tu : Option String) :
    (get_all_announcements db tu = .error .unauthorized ↔ ¬ authorized db tu) ∧
    (∀ m e s now nid,
      create_announcement db m e s tu now nid = .error .unauthorized ↔ ¬ authorized db tu) ∧
    (∀ id m e s,
      update_announcement db id m e s tu = .error .unauthorized ↔ ¬ authorized db tu) ∧
    (∀ id, delete_announcement db id tu = .error .unauthorized ↔ ¬ authorized db tu) := by
  by_cases ha : authorized db tu
  · obtain ⟨u, hu⟩ := authorized_check_ok db tu ha
    refine ⟨iff_of_false (get_all_ne_unauth db tu u hu) (not_not_intro ha),
      fun m e s now nid => iff_of_false (create_ne_unauth db m e s tu now nid u hu) (not_not_intro ha),
      fun id m e s => iff_of_false (update_ne_unauth db id m e s tu u hu) (not_not_intro ha),
      fun id => iff_of_false (delete_ne_unauth db id tu u hu) (not_not_intro ha)⟩
  · have herr := (checkTeacherAuth_error_iff db tu).mpr ha
    refine ⟨iff_of_true ?_ ha, fun m e s now nid => iff_of_true ?_ ha,
      fun id m e s => iff_of_true ?_ ha, fun id => iff_of_true ?_ ha⟩
    · unfold get_all_announcements
      rw [herr]
    · unfold create_announcement
      rw [herr]
    · unfold update_announcement
      rw [herr]
    · unfold delete_announcement
      rw [herr]

/-! ### Order lemmas for the string comparison -/

theorem charListLe_total (xs ys : List Char) :
    charListLe xs ys = true ∨ charListLe ys xs = true := by
  induction xs generalizing ys with
  | nil => left; rfl
  | cons a as ih =>
    cases ys with
    | nil => right; rfl
    | cons b bs =>
      unfold charListLe
      by_cases h1 : a.toNat < b.toNat
      · left; rw [if_pos h1]
      · by_cases h2 : b.toNat < a.toNat
        · right; rw [if_pos h2]
        · rw [if_neg h1, if_neg h2, if_neg h2, if_neg h1]
          exact ih bs

theorem charListLe_trans (xs ys zs : List Char) (h1 : charListLe xs ys = true)
    (h2 : charListLe ys zs = true) : charListLe xs zs = true := by
  induction xs generalizing ys zs with
  | nil => rfl
  | cons a as ih =>
    cases ys with
    | nil => cases h1
    | cons b bs =>
      cases zs with
      | nil => cases h2
      | cons c cs =>
        unfold charListLe at h1 h2 ⊢
        by_cases hab : a.toNat < b.toNat <;> by_cases hbc : b.toNat < c.toNat <;>
          by_cases hba : b.toNat < a.toNat <;> by_cases hcb : c.toNat < b.toNat <;>
          simp [hab, hbc, hba, hcb] at h1 h2 ⊢ <;>
          first
            | omega
            | exact ih bs cs h1 h2
            | exact Or.inr ⟨by omega, ih bs cs h1 h2⟩

theorem strLe_empty (t : String) : strLe "" t = true := rfl

theorem createdAtGe_total : ∀ a b : Announcement, createdAtGe a b ∨ createdAtGe b a :=
  fun a b => (charListLe_total b.created_at.data a.created_at.data).elim Or.inl Or.inr

theorem createdAtGe_trans : ∀ a b c : Announcement,
    createdAtGe a b → createdAtGe b c → createdAtGe a c :=
  fun _ _ _ h1 h2 => charListLe_trans _ _ _ h2 h1

/-! ### Listing endpoints -/

theorem mem_sortDesc (l : List Announcement) (a : Announcement) :
    a ∈ sortDesc l ↔ a ∈ l :=
  (List.perm_insertionSort createdAtGe l).mem_iff

theorem sortDesc_sorted (l : List Announcement) :
    List.Sorted createdAtGe (sortDesc l) := by
  haveI : IsTotal Announcement createdAtGe := ⟨createdAtGe_total⟩
  haveI : IsTrans Announcement createdAtGe := ⟨createdAtGe_trans⟩
  exact List.sorted_insertionSort createdAtGe l

theorem isActive_iff (now : String) (a : Announcement) :
    isActive now a = true ↔
      strLe now a.end_date = true ∧
        (a.start_date = none ∨ ∃ s, a.start_date = some s ∧ strLe s now = true) := by
  unfold isActive
  cases h : a.start_date with
  | none => simp
  | some s =>
    simp only [Bool.and_eq_true]
    constructor
    · rintro ⟨h1, h2⟩
      exact ⟨h1, Or.inr ⟨s, rfl, h2⟩⟩
    · rintro ⟨h1, h2 | ⟨t, ht, h3⟩⟩
      · cases h2
      · cases ht
        exact ⟨h1, h3⟩

/-- C2: list-active returns exactly the stored announcements whose end_date
is lexicographically at or after the current time and whose start_date is
absent or lexicographically at or before the current time; an announcement
with end_date in the past, or start_date in the future, is never returned,
and an absent start_date always qualifies. -/
theorem C2_active_membership (db : DB) (now : String) (a : Announcement) :
    a ∈ get_active_announcements db now ↔
      a ∈ db.announcements ∧ strLe now a.end_date = true ∧
        (a.start_date = none ∨ ∃ s, a.start_date = some s ∧ strLe s now = true) := by
  unfold get_active_announcements
  rw [mem_sortDesc, List.mem_filter, isActive_iff]

/-- C9: list-active, and list-all on successful authorization, both return
their results ordered by created_at descending. -/
theorem C9_listings_sorted (db : DB) (now : String) (tu : Option String) :
    List.Sorted createdAtGe (get_active_announcements db now) ∧
      ∀ l, get_all_announcements db tu = .ok l → List.Sorted createdAtGe l := by
  refine ⟨sortDesc_sorted _, fun l h => ?_⟩
  unfold get_all_announcements at h
  cases hc : checkTeacherAuth db tu with
  | error e => rw [hc] at h; cases h
  | ok u =>
    rw [hc] at h
    injection h with h
    rw [← h]
    exact sortDesc_sorted _

theorem C9_witness :
    List.Sorted createdAtGe (get_active_announcements wDB "2025-06-01T00:00:00") ∧
      List.Sorted createdAtGe [wAnn2, wAnn1] :=
  ⟨(C9_listings_sorted wDB "2025-06-01T00:00:00" (some "alice")).1,
   (C9_listings_sorted wDB "2025-06-01T00:00:00" (some "alice")).2 [wAnn2, wAnn1] (by rfl)⟩

/-! ### Create endpoint -/

/-- C3: an authorized create fails with InvalidArgument whenever end_date does
not parse as ISO-8601 after Z-normalization, or whenever start_date is
supplied, parseable, and compares not strictly before end_date; in every such
case no record is persisted (the call returns an error, so the store is
untouched). -/
theorem C3_create_invalid_dates (db : DB) (m e : String) (s tu : Option String)
    (now nid : String) (hauth : authorized db tu)
    (hbad : pyFromIso (znorm e) = none ∨
      ∃ str sd ed o, s = some str ∧ pyFromIso (znorm str) = some sd ∧
        pyFromIso (znorm e) = some ed ∧ pyCompare sd ed = some o ∧ o ≠ Ordering.lt) :
    create_announcement db m e s tu now nid = .error .invalidArgument := by
  obtain ⟨u, hu⟩ := authorized_check_ok db tu hauth
  unfold create_announcement
  rw [hu]
  dsimp only
  have hval : validateCreateDates e s = .error .invalidArgument := by
    unfold validateCreateDates
    rcases hbad with h | ⟨str, sd, ed, o, rfl, hsd, hed, hcmp, hne⟩
    · rw [h]
    · rw [hed]
      dsimp only
      have hstr : str ≠ "" := by
        intro h0
        subst h0
        exact Option.noConfusion (show (none : Option PyDateTime) = some sd from hsd)
      rw [if_neg hstr, hsd]
      dsimp only
      rw [hcmp]
      cases o with
      | lt => exact absurd rfl hne
      | eq => rfl
      | gt => rfl
  rw [hval]

theorem C3_witness :
    create_announcement wDB "msg" "not-a-date" (some "2025-01-02T00:00:00")
      (some "alice") "2025-03-01T00:00:00" "cccccccccccccccccccccccc" =
      .error .invalidArgument :=
  C3_create_invalid_dates wDB "msg" "not-a-date" (some "2025-01-02T00:00:00")
    (some "alice") "2025-03-01T00:00:00" "cccccccccccccccccccccccc" wAuth (Or.inl rfl)

/-- C8: an authorized create with end_date carrying a trailing Z succeeds
(the Z is normalized to an explicit zero UTC offset before parsing) and the
stored end_date is the supplied string, Z included. -/
theorem C8_create_z_suffix (db : DB) (m : String) (tu : Option String)
    (now nid : String) (hauth : authorized db tu) :
    ∃ db' a,
      create_announcement db m "2030-01-01T00:00:00Z" none tu now nid = .ok (db', a) ∧
        a.end_date = "2030-01-01T00:00:00Z" ∧ a ∈ db'.announcements := by
  obtain ⟨u, hu⟩ := authorized_check_ok db tu hauth
  unfold create_announcement
  rw [hu]
  dsimp only
  rw [show validateCreateDates "2030-01-01T00:00:00Z" none = .ok () from rfl]
  exact ⟨_, _, rfl, rfl, by simp⟩

theorem C8_witness :
    ∃ db' a,
      create_announcement wDB "msg" "2030-01-01T00:00:00Z" none (some "alice")
          "2025-03-01T00:00:00" "cccccccccccccccccccccccc" = .ok (db', a) ∧
        a.end_date = "2030-01-01T00:00:00Z" ∧ a ∈ db'.announcements :=
  C8_create_z_suffix wDB "msg" (some "alice") "2025-03-01T00:00:00"
    "cccccccccccccccccccccccc" wAuth

/-- C10: an authorized create with parseable end_date and start_date supplied
as the empty string skips the start-before-end validation (the empty string is
falsy and never parsed) and succeeds, persisting the empty string verbatim as
start_date; that value is not null, does not parse as ISO-8601, and the
active-window check then always classifies the record as started, leaving
only the end_date condition. -/
theorem C10_create_empty_start (db : DB) (m e : String) (tu : Option String)
    (now nid : String) (ed : PyDateTime) (hauth : authorized db tu)
    (hend : pyFromIso (znorm e) = some ed) :
    ∃ db' a,
      create_announcement db m e (some "") tu now nid = .ok (db', a) ∧
        a.start_date = some "" ∧ a.end_date = e ∧ a ∈ db'.announcements ∧
        pyFromIso "" = none ∧
        ∀ t : String, isActive t a = strLe t a.end_date := by
  obtain ⟨u, hu⟩ := authorized_check_ok db tu hauth
  unfold create_announcement
  rw [hu]
  dsimp only
  have hval : validateCreateDates e (some "") = .ok () := by
    unfold validateCreateDates
    rw [hend]
    dsimp only
    rw [if_pos rfl]
  rw [hval]
  dsimp only
  refine ⟨_, _, rfl, rfl, rfl, by simp, rfl, fun t => ?_⟩
  unfold isActive
  dsimp only
  rw [strLe_empty, Bool.and_true]

/-! ### Update and delete helper lemmas -/

theorem deleteFirst_count_eq_zero_iff (oid : String) (l : List Announcement) :
    (deleteFirst oid l).2 = 0 ↔ findByOid l oid = none := by
  induction l with
  | nil => simp [deleteFirst, findByOid]
  | cons a rest ih =>
    unfold deleteFirst findByOid
    by_cases h : a.oid == oid
    · rw [if_pos h]
      simp only [List.find?_cons, h]
      constructor
      · intro h0; cases h0
      · intro h0; cases h0
    · rw [if_neg h]
      simp only [List.find?_cons]
      rw [show (a.oid == oid) = false from by simp at h ⊢; exact h]
      cases hd : deleteFirst oid rest with
      | mk r n =>
        dsimp only
        have := ih
        unfold findByOid at this
        rw [hd] at this
        exact this

theorem findByOid_map_update (l : List Announcement) (oid : String) (uf : UpdateFields) :
    findByOid (l.map (fun a => if a.oid == oid then applyUpdate uf a else a)) oid =
      (findByOid l oid).map (applyUpdate uf) := by
  induction l with
  | nil => rfl
  | cons a rest ih =>
    unfold findByOid at ih ⊢
    rw [List.map_cons]
    by_cases h : a.oid == oid
    · rw [if_pos h]
      simp only [List.find?_cons]
      have hoid : ((applyUpdate uf a).oid == oid) = true := h
      rw [hoid, h]
      rfl
    · rw [if_neg h]
      simp only [List.find?_cons]
      rw [show (a.oid == oid) = false from by simp at h ⊢; exact h]
      exact ih

theorem buildEnd_ok_shape (e : Option String) (ef : Option String)
    (h : buildEnd e = .ok ef) : ef = e := by
  unfold buildEnd at h
  repeat' split at h
  all_goals (try cases h)
  all_goals rfl

theorem buildStart_ok_shape (s : Option String) (sf : Option (Option String))
    (h : buildStart s = .ok sf) : sf = startFieldOf s := by
  unfold buildStart at h
  repeat' split at h
  all_goals (try cases h)
  all_goals simp_all [startFieldOf]

theorem buildUpdateFields_ok_shape (m e s : Option String) (uf : UpdateFields)
    (h : buildUpdateFields m e s = .ok uf) :
    uf = ⟨m, e, startFieldOf s⟩ := by
  unfold buildUpdateFields at h
  cases hbe : buildEnd e with
  | error err => rw [hbe] at h; cases h
  | ok ef =>
    rw [hbe] at h
    dsimp only at h
    cases hbs : buildStart s with
    | error err => rw [hbs] at h; cases h
    | ok sf =>
      rw [hbs] at h
      dsimp only at h
      injection h with h
      rw [← h, buildEnd_ok_shape e ef hbe, buildStart_ok_shape s sf hbs]

theorem finalStartOf_shape (m e s : Option String) (a : Announcement) :
    finalStartOf ⟨m, e, startFieldOf s⟩ a = rawFinalStart s a := by
  cases s <;> rfl

theorem finalEndOf_shape (m e s : Option String) (a : Announcement) :
    finalEndOf ⟨m, e, startFieldOf s⟩ a = rawFinalEnd e a := by
  cases e <;> rfl

theorem pyFromIso_empty : pyFromIso "" = none := rfl

/-! ### C5: malformed id vs missing record -/

/-- C5: for an authorized update or delete, a malformed identifier fails with
InvalidArgument while a well-formed identifier matching no record fails with
NotFound, and the two error codes are distinct. -/
theorem C5_id_error_split (db : DB) (id : String) (m e s tu : Option String)
    (hauth : authorized db tu) :
    (parseObjectId id = none →
       update_announcement db id m e s tu = .error .invalidArgument ∧
       delete_announcement db id tu = .error .invalidArgument) ∧
    (∀ oid, parseObjectId id = some oid → findByOid db.announcements oid = none →
       update_announcement db id m e s tu = .error .notFound ∧
       delete_announcement db id tu = .error .notFound) ∧
    ApiError.invalidArgument ≠ ApiError.notFound := by
  obtain ⟨u, hu⟩ := authorized_check_ok db tu hauth
  refine ⟨fun hp => ⟨?_, ?_⟩, fun oid hp hf => ⟨?_, ?_⟩, fun hc => by cases hc⟩
  · unfold update_announcement
    rw [hu]
    dsimp only
    rw [hp]
  · unfold delete_announcement
    rw [hu]
    dsimp only
    rw [hp]
  · unfold update_announcement
    rw [hu]
    dsimp only
    rw [hp]
    dsimp only
    rw [hf]
  · unfold delete_announcement
    rw [hu]
    dsimp only
    rw [hp]
    dsimp only
    have h0 : (deleteFirst oid db.announcements).2 = 0 :=
      (deleteFirst_count_eq_zero_iff oid db.announcements).mpr hf
    cases hd : deleteFirst oid db.announcements with
    | mk r n =>
      rw [hd] at h0
      dsimp only at h0 ⊢
      rw [if_pos (by rw [h0]; rfl)]

theorem C5_witness :
    update_announcement wDB "not-a-valid-id" none none none (some "alice") =
        .error .invalidArgument ∧
      delete_announcement wDB "cccccccccccccccccccccccc" (some "alice") =
        .error .notFound :=
  ⟨((C5_id_error_split wDB "not-a-valid-id" none none none (some "alice") wAuth).1 rfl).1,
   ((C5_id_error_split wDB "cccccccccccccccccccccccc" none none none (some "alice")
      wAuth).2.1 "cccccccccccccccccccccccc" rfl rfl).2⟩

theorem C10_witness :
    ∃ db' a,
      create_announcement wDB "msg" "2030-06-01T00:00:00" (some "") (some "alice")
          "2025-03-01T00:00:00" "cccccccccccccccccccccccc" = .ok (db', a) ∧
        a.start_date = some "" ∧ a.end_date = "2030-06-01T00:00:00" ∧
        a ∈ db'.announcements ∧ pyFromIso "" = none ∧
        ∀ t : String, isActive t a = strLe t a.end_date :=
  C10_create_empty_start wDB "msg" "2030-06-01T00:00:00" (some "alice")
    "2025-03-01T00:00:00" "cccccccccccccccccccccccc"
    ((pyFromIso (znorm "2030-06-01T00:00:00")).getD ⟨0, none⟩) wAuth (by rfl)

end Announcements

namespace Announcements

/-! ### C6: empty-string start_date clears the field -/

/-- C6: for an existing record with start_date set, an authorized update
supplying the empty string as start_date succeeds and returns a record whose
start_date is absent, while an update not supplying start_date at all leaves
every stored start_date unchanged. -/
theorem C6_empty_start_clears (db : DB) (id : String) (tu : Option String)
    (oid : String) (ann : Announcement) (s0 : String)
    (hauth : authorized db tu) (hoid : parseObjectId id = some oid)
    (hfind : findByOid db.announcements oid = some ann)
    (_hset : ann.start_date = some s0) :
    (∃ db' r, update_announcement db id none none (some "") tu = .ok (db', r) ∧
       r.start_date = none) ∧
    (∀ m e db' r, update_announcement db id m e none tu = .ok (db', r) →
       db'.announcements.map Announcement.start_date =
         db.announcements.map Announcement.start_date) := by
  obtain ⟨u, hu⟩ := authorized_check_ok db tu hauth
  constructor
  · unfold update_announcement
    rw [hu]
    dsimp only
    rw [hoid]
    dsimp only
    rw [hfind]
    dsimp only
    rw [show buildUpdateFields none none (some "") = .ok ⟨none, none, some none⟩ from rfl]
    dsimp only
    rw [show validateFinalDates (finalStartOf ⟨none, none, some none⟩ ann)
          (finalEndOf ⟨none, none, some none⟩ ann) = .ok () from rfl]
    try dsimp only
    rw [if_pos (show ufNonempty ⟨none, none, some none⟩ = true from rfl)]
    rw [findByOid_map_update db.announcements oid ⟨none, none, some none⟩, hfind]
    exact ⟨_, _, rfl, rfl⟩
  · intro m e db' r h
    unfold update_announcement at h
    rw [hu] at h
    dsimp only at h
    rw [hoid] at h
    dsimp only at h
    rw [hfind] at h
    dsimp only at h
    cases hb : buildUpdateFields m e none with
    | error err => rw [hb] at h; cases h
    | ok uf =>
      rw [hb] at h
      dsimp only at h
      have hshape := buildUpdateFields_ok_shape m e none uf hb
      cases hv : validateFinalDates (finalStartOf uf ann) (finalEndOf uf ann) with
      | error err => rw [hv] at h; cases h
      | ok unitv =>
        rw [hv] at h
        try dsimp only at h
        by_cases hne : ufNonempty uf = true
        · rw [if_pos hne] at h
          rw [findByOid_map_update db.announcements oid uf, hfind] at h
          simp only [Option.map_some'] at h
          injection h with h
          injection h with h1 h2
          rw [← h1]
          dsimp only
          rw [List.map_map]
          refine List.map_congr_left (fun a _ => ?_)
          dsimp only [Function.comp]
          by_cases hc : (a.oid == oid) = true
          · rw [if_pos hc]
            rw [hshape]
            rfl
          · rw [if_neg hc]
        · rw [if_neg hne] at h
          cases hfd : findByOid db.announcements oid with
          | none => rw [hfd] at h; cases h
          | some x =>
            rw [hfd] at h
            dsimp only at h
            injection h with h
            injection h with h1 h2
            rw [← h1]

theorem C6_witness :
    (∃ db' r, update_announcement wDB "aaaaaaaaaaaaaaaaaaaaaaaa" none none (some "")
        (some "alice") = .ok (db', r) ∧ r.start_date = none) ∧
      (DB.mk [{ wAnn1 with message := "mm" }, wAnn2] ["alice"]).announcements.map
          Announcement.start_date =
        wDB.announcements.map Announcement.start_date :=
  ⟨(C6_empty_start_clears wDB "aaaaaaaaaaaaaaaaaaaaaaaa" (some "alice")
      "aaaaaaaaaaaaaaaaaaaaaaaa" wAnn1 "2025-01-01T00:00:00" wAuth rfl rfl rfl).1,
   (C6_empty_start_clears wDB "aaaaaaaaaaaaaaaaaaaaaaaa" (some "alice")
      "aaaaaaaaaaaaaaaaaaaaaaaa" wAnn1 "2025-01-01T00:00:00" wAuth rfl rfl rfl).2
     (some "mm") none (DB.mk [{ wAnn1 with message := "mm" }, wAnn2] ["alice"])
     { wAnn1 with message := "mm" } (by rfl)⟩

end Announcements

namespace Announcements

/-! ### C7: frame condition of update -/

theorem applyUpdate_shape (m e s : Option String) (a : Announcement) :
    applyUpdate ⟨m, e, startFieldOf s⟩ a =
      { a with
        message := m.getD a.message,
        end_date := e.getD a.end_date,
        start_date := rawFinalStart s a } := by
  cases s <;> rfl

/-- C7: every successful update mutates exactly the supplied fields of the
matched record (message, end_date, start_date, the last with empty-string
clearing); id, created_by, created_at and every unsupplied field keep their
prior values, every other record is untouched, the teacher collection is
untouched, and the post-update record is returned. -/
theorem C7_update_frame (db : DB) (id : String) (m e s tu : Option String)
    (db' : DB) (ret : Announcement)
    (h : update_announcement db id m e s tu = .ok (db', ret)) :
    ∃ oid ann, parseObjectId id = some oid ∧
      findByOid db.announcements oid = some ann ∧
      ret = { ann with
        message := m.getD ann.message,
        end_date := e.getD ann.end_date,
        start_date := rawFinalStart s ann } ∧
      db'.teachers = db.teachers ∧
      db'.announcements = db.announcements.map (fun a =>
        if a.oid == oid then
          { a with
            message := m.getD a.message,
            end_date := e.getD a.end_date,
            start_date := rawFinalStart s a }
        else a) := by
  unfold update_announcement at h
  cases hc : checkTeacherAuth db tu with
  | error err => rw [hc] at h; cases h
  | ok u =>
    rw [hc] at h
    dsimp only at h
    cases hp : parseObjectId id with
    | none => rw [hp] at h; cases h
    | some oid =>
      rw [hp] at h
      dsimp only at h
      cases hf : findByOid db.announcements oid with
      | none => rw [hf] at h; cases h
      | some ann =>
        rw [hf] at h
        dsimp only at h
        cases hb : buildUpdateFields m e s with
        | error err => rw [hb] at h; cases h
        | ok uf =>
          rw [hb] at h
          dsimp only at h
          have hshape := buildUpdateFields_ok_shape m e s uf hb
          subst hshape
          cases hv : validateFinalDates (finalStartOf ⟨m, e, startFieldOf s⟩ ann)
              (finalEndOf ⟨m, e, startFieldOf s⟩ ann) with
          | error err => rw [hv] at h; cases h
          | ok unitv =>
            rw [hv] at h
            try dsimp only at h
            refine ⟨oid, ann, rfl, hf, ?_⟩
            by_cases hne : ufNonempty ⟨m, e, startFieldOf s⟩ = true
            · rw [if_pos hne] at h
              rw [findByOid_map_update db.announcements oid _, hf] at h
              simp only [Option.map_some'] at h
              injection h with h
              injection h with h1 h2
              refine ⟨?_, ?_, ?_⟩
              · rw [← h2, applyUpdate_shape]
              · rw [← h1]
              · rw [← h1]
                dsimp only
                exact List.map_congr_left (fun a _ => by
                  by_cases hco : (a.oid == oid) = true
                  · rw [if_pos hco, if_pos hco, applyUpdate_shape]
                  · rw [if_neg hco, if_neg hco])
            · rw [if_neg hne] at h
              rw [hf] at h
              dsimp only at h
              injection h with h
              injection h with h1 h2
              have hnone : m = none ∧ e = none ∧ s = none := by
                unfold ufNonempty at hne
                cases m <;> cases e <;> cases s <;> simp_all [startFieldOf]
              obtain ⟨rfl, rfl, rfl⟩ := hnone
              refine ⟨?_, ?_, ?_⟩
              · rw [← h2]
                rfl
              · rw [← h1]
              · rw [← h1]
                have hid : ∀ a ∈ db.announcements,
                    (if (a.oid == oid) = true then
                      { a with
                        message := Option.getD none a.message,
                        end_date := Option.getD none a.end_date,
                        start_date := rawFinalStart none a }
                    else a) = a := by
                  intro a _
                  by_cases hco : (a.oid == oid) = true
                  · rw [if_pos hco]
                    rfl
                  · rw [if_neg hco]
                rw [List.map_congr_left hid]
                simp

theorem C7_witness :
    ∃ oid ann, parseObjectId "aaaaaaaaaaaaaaaaaaaaaaaa" = some oid ∧
      findByOid wDB.announcements oid = some ann ∧
      ({ wAnn1 with message := "x", start_date := none } : Announcement) = { ann with
        message := (some "x").getD ann.message,
        end_date := (none : Option String).getD ann.end_date,
        start_date := rawFinalStart (some "") ann } ∧
      (DB.mk [{ wAnn1 with message := "x", start_date := none }, wAnn2] ["alice"]).teachers
          = wDB.teachers ∧
      (DB.mk [{ wAnn1 with message := "x", start_date := none }, wAnn2] ["alice"]).announcements
          = wDB.announcements.map (fun a =>
        if a.oid == oid then
          { a with
            message := (some "x").getD a.message,
            end_date := (none : Option String).getD a.end_date,
            start_date := rawFinalStart (some "") a }
        else a) :=
  C7_update_frame wDB "aaaaaaaaaaaaaaaaaaaaaaaa" (some "x") none (some "") (some "alice")
    (DB.mk [{ wAnn1 with message := "x", start_date := none }, wAnn2] ["alice"])
    { wAnn1 with message := "x", start_date := none } (by rfl)

/-! ### C4: re-validation of the prospective final dates -/

/-- C4: for an authorized update of an existing record, once the prospective
final start_date and end_date (supplied values override stored ones, empty
string clears) are both present, both parseable, and comparable with the
final start not strictly before the final end, the update fails with
InvalidArgument and no write happens. -/
theorem C4_update_final_revalidation (db : DB) (id : String) (m e s tu : Option String)
    (oid : String) (ann : Announcement) (fs : String) (sd ed : PyDateTime) (o : Ordering)
    (hauth : authorized db tu) (hoid : parseObjectId id = some oid)
    (hfind : findByOid db.announcements oid = some ann)
    (hfs : rawFinalStart s ann = some fs)
    (hsd : pyFromIso (znorm fs) = some sd)
    (hed : pyFromIso (znorm (rawFinalEnd e ann)) = some ed)
    (hcmp : pyCompare sd ed = some o) (hne : o ≠ Ordering.lt) :
    update_announcement db id m e s tu = .error .invalidArgument := by
  obtain ⟨u, hu⟩ := authorized_check_ok db tu hauth
  unfold update_announcement
  rw [hu]
  dsimp only
  rw [hoid]
  dsimp only
  rw [hfind]
  dsimp only
  have hbe : buildEnd e = .ok e := by
    cases e with
    | none => rfl
    | some v =>
      unfold buildEnd
      dsimp only
      rw [show pyFromIso (znorm v) = some ed from hed]
  have hbs : buildStart s = .ok (startFieldOf s) := by
    cases s with
    | none => rfl
    | some v =>
      unfold buildStart startFieldOf
      dsimp only
      by_cases hv : v = ""
      · rw [if_pos hv, if_pos hv]
      · have hfv : fs = v := by
          unfold rawFinalStart at hfs
          dsimp only at hfs
          rw [if_neg hv] at hfs
          injection hfs with hfs
          exact hfs.symm
        rw [if_neg hv, if_neg hv, show pyFromIso (znorm v) = some sd from hfv ▸ hsd]
  have hb : buildUpdateFields m e s = .ok ⟨m, e, startFieldOf s⟩ := by
    unfold buildUpdateFields
    rw [hbe]
    dsimp only
    rw [hbs]
  rw [hb]
  dsimp only
  have hfs_ne : fs ≠ "" := by
    intro h0
    rw [h0] at hsd
    exact Option.noConfusion (show (none : Option PyDateTime) = some sd from hsd)
  have hfe_ne : rawFinalEnd e ann ≠ "" := by
    intro h0
    rw [h0] at hed
    exact Option.noConfusion (show (none : Option PyDateTime) = some ed from hed)
  have hval : validateFinalDates (finalStartOf ⟨m, e, startFieldOf s⟩ ann)
      (finalEndOf ⟨m, e, startFieldOf s⟩ ann) = .error .invalidArgument := by
    rw [finalStartOf_shape, finalEndOf_shape, hfs]
    unfold validateFinalDates
    rw [if_pos (by simp [truthy, hfs_ne, hfe_ne])]
    dsimp only
    rw [hsd, hed]
    dsimp only
    rw [hcmp]
    cases o with
    | lt => exact absurd rfl hne
    | eq => rfl
    | gt => rfl
  rw [hval]

theorem C4_witness :
    update_announcement wDB "aaaaaaaaaaaaaaaaaaaaaaaa" none
        (some "2024-01-01T00:00:00") none (some "alice") = .error .invalidArgument :=
  C4_update_final_revalidation wDB "aaaaaaaaaaaaaaaaaaaaaaaa" none
    (some "2024-01-01T00:00:00") none (some "alice") "aaaaaaaaaaaaaaaaaaaaaaaa"
    wAnn1 "2025-01-01T00:00:00"
    ((pyFromIso "2025-01-01T00:00:00").getD ⟨0, none⟩)
    ((pyFromIso "2024-01-01T00:00:00").getD ⟨0, none⟩)
    Ordering.gt wAuth rfl rfl rfl (by rfl) (by rfl) (by rfl)
    (fun hc => Ordering.noConfusion hc)

end Announcements
